import Mathlib

/-!
Verification of the FaceKeeper attendance core: a shallow embedding of
src/database.py (AttendanceDatabase) and src/attendance.py (AttendanceSystem)
in Lean 4, with theorems about the recognition decision policy, the session
dedup cache, and the attendance store's uniqueness invariant.

Modelling conventions:
* SQLite rows become Lean structures; the attendance table is a list of rows
  in insertion order.  DATE and TIME column values (stored as text of fixed
  shape YYYY-MM-DD / HH:MM:SS and compared lexicographically, which agrees
  with chronological order) are modelled as naturals.
* The LBPH confidence (a float, lower = more similar) is modelled as a
  rational; the threshold 70 is exact in both.
* A session is assumed to stay within a single calendar date: the code calls
  datetime.now() per operation, which yields the session's date throughout
  such a session, so the date is threaded as a fixed parameter.
* mark_attendance's sqlite3.Error branch (a genuine storage fault, distinct
  from the IntegrityError duplicate branch) is modelled by a boolean input.
* The list of labels passed to db.mark_attendance is logged in a ghost
  field of the session state so that call counts can be stated.
-/

namespace FaceKeeper

/-- A row of the `users` table (id, roll_number, name) as returned by
`get_all_users`. -/
structure UserRec where
  uid : Nat
  roll_number : String
  name : String
deriving DecidableEq

/-- A row of the `attendance` table: `(user_id, date, time, status)`;
`status` defaults to "Present" on insert. -/
structure AttRec where
  user_id : Nat
  date : Nat
  time : Nat
  status : String
deriving DecidableEq

/-- Whether the attendance table holds a row with key `(uid, d)` — exactly
the condition under which the `UNIQUE(user_id, date)` constraint makes the
INSERT in `mark_attendance` raise `sqlite3.IntegrityError`. -/
def hasRecord (db : List AttRec) (uid d : Nat) : Bool :=
  db.any (fun r => r.user_id == uid && r.date == d)

/-- Embeds `AttendanceDatabase.mark_attendance` (src/database.py:109-138)
including its two except branches: `fault = true` models the generic
`sqlite3.Error` branch (prints and returns False); otherwise the INSERT
succeeds and returns True unless the `(user_id, date)` key is already
present, in which case `IntegrityError` is caught and False is returned.
Returns the Python return value together with the table after the call. -/
def markAttendanceEx (fault : Bool) (db : List AttRec) (uid d t : Nat) :
    Bool × List AttRec :=
  if fault then (false, db)
  else if hasRecord db uid d then (false, db)
  else (true, db ++ [⟨uid, d, t, "Present"⟩])

/-- `mark_attendance` on the fault-free path (the path the session loop
exercises). -/
def mark_attendance (db : List AttRec) (uid d t : Nat) : Bool × List AttRec :=
  markAttendanceEx false db uid d t

/-! ### Queries (src/database.py:140-191) -/

/-- A result row of `get_attendance_by_date`:
`SELECT u.name, u.roll_number, a.time, a.status`. -/
structure ByDateRow where
  name : String
  roll_number : String
  time : Nat
  status : String
deriving DecidableEq

/-- A result row of `get_all_attendance_records`:
`SELECT u.name, u.roll_number, a.date, a.time, a.status`. -/
structure AllRow where
  name : String
  roll_number : String
  date : Nat
  time : Nat
  status : String
deriving DecidableEq

/-- `JOIN users u ON a.user_id = u.id`: the matching user row, if any
(`u.id` is a primary key; `find?` returns the unique match). -/
def joinUser (users : List UserRec) (r : AttRec) : Option UserRec :=
  users.find? (fun u => u.uid == r.user_id)

/-- The `ORDER BY a.time` (ascending) comparison of
`get_attendance_by_date`. -/
def byDateLe (a b : ByDateRow) : Prop := a.time ≤ b.time

instance : DecidableRel byDateLe := fun a b =>
  inferInstanceAs (Decidable (a.time ≤ b.time))

instance : IsTotal ByDateRow byDateLe := ⟨fun a b => Nat.le_total a.time b.time⟩

instance : IsTrans ByDateRow byDateLe := ⟨fun _ _ _ => Nat.le_trans⟩

/-- The `ORDER BY a.date DESC, a.time DESC` comparison of
`get_all_attendance_records`: `a` may precede `b` iff `a`'s date is later,
or the dates agree and `a`'s time is no earlier. -/
def allRowLe (a b : AllRow) : Prop :=
  b.date < a.date ∨ (a.date = b.date ∧ b.time ≤ a.time)

instance : DecidableRel allRowLe := fun a b =>
  inferInstanceAs (Decidable (b.date < a.date ∨ (a.date = b.date ∧ b.time ≤ a.time)))

instance : IsTotal AllRow allRowLe := by
  constructor
  intro a b
  rcases Nat.lt_trichotomy a.date b.date with h | h | h
  · exact Or.inr (Or.inl h)
  · rcases Nat.le_total b.time a.time with ht | ht
    · exact Or.inl (Or.inr ⟨h, ht⟩)
    · exact Or.inr (Or.inr ⟨h.symm, ht⟩)
  · exact Or.inl (Or.inl h)

instance : IsTrans AllRow allRowLe := by
  constructor
  intro a b c hab hbc
  rcases hab with h1 | ⟨h1, h1t⟩ <;> rcases hbc with h2 | ⟨h2, h2t⟩
  · exact Or.inl (Nat.lt_trans h2 h1)
  · exact Or.inl (h2 ▸ h1)
  · exact Or.inl (h1 ▸ h2)
  · exact Or.inr ⟨h1.trans h2, Nat.le_trans h2t h1t⟩

/-- The unsorted result set of `get_attendance_by_date`: the attendance rows
whose `date` matches, each joined with its user. -/
def byDateRows (users : List UserRec) (db : List AttRec) (d : Nat) :
    List ByDateRow :=
  (db.filter (fun r => r.date == d)).filterMap (fun r =>
    (joinUser users r).map (fun u => ⟨u.name, u.roll_number, r.time, r.status⟩))

/-- The unsorted result set of `get_all_attendance_records`: every attendance
row joined with its user. -/
def allRows (users : List UserRec) (db : List AttRec) : List AllRow :=
  db.filterMap (fun r =>
    (joinUser users r).map (fun u => ⟨u.name, u.roll_number, r.date, r.time, r.status⟩))

/-- Embeds `AttendanceDatabase.get_attendance_by_date` (src/database.py:140-164):
filter the attendance table to the given date, join each row with its user,
and sort ascending by time (`ORDER BY a.time`). -/
def get_attendance_by_date (users : List UserRec) (db : List AttRec) (d : Nat) :
    List ByDateRow :=
  List.insertionSort byDateLe (byDateRows users db d)

/-- Embeds `AttendanceDatabase.get_all_attendance_records`
(src/database.py:179-191): join every attendance row with its user and sort
by date descending, then time descending (`ORDER BY a.date DESC, a.time DESC`). -/
def get_all_attendance_records (users : List UserRec) (db : List AttRec) :
    List AllRow :=
  List.insertionSort allRowLe (allRows users db)

/-! ### Identity directory and decision policy (src/attendance.py) -/

/-- The entry `label_map[user_id] = {roll_number, name}` built by
`load_recognizer` from `get_all_users`. -/
def buildLabelMap (users : List UserRec) : List (Nat × String × String) :=
  users.map (fun u => (u.uid, u.roll_number, u.name))

/-- Embeds `AttendanceSystem.load_recognizer` (src/attendance.py:30-54):
returns False when `face_recognizer.yml` is absent (`modelExists = false`)
or reading the model raises (`readOk = false`, the except branch); otherwise
builds the label map from the users table and returns True — note the users
list may be empty. Returns the Python return value and the label map. -/
def load_recognizer (modelExists readOk : Bool) (users : List UserRec) :
    Bool × Option (List (Nat × String × String)) :=
  if !modelExists then (false, none)
  else if !readOk then (false, none)
  else (true, some (buildLabelMap users))

/-- `self.label_map.get(label, None)` (src/attendance.py:117), with the map
as built from the users table. -/
def lookup_user (users : List UserRec) (label : Nat) : Option UserRec :=
  users.find? (fun u => u.uid == label)

/-- The per-face decision made at src/attendance.py:112-121. -/
inductive Decision where
  | Accepted (label : Nat)
  | Rejected
deriving DecidableEq

/-- The decision policy of the per-face branch (src/attendance.py:115-121):
the face is accepted iff `confidence < self.recognition_threshold` and
`label_map.get(label)` is not None; the unknown-face branch and the
stale-label fallthrough are both rejections. -/
def decide_face (users : List UserRec) (label : Nat) (score thr : ℚ) : Decision :=
  if score < thr then
    match lookup_user users label with
    | some _ => .Accepted label
    | none => .Rejected
  else .Rejected

/-! ### The session loop (src/attendance.py:56-204) -/

/-- One detected face handed to `recognizer.predict`: the predicted label,
its confidence (dissimilarity, lower = more similar), and the wall-clock
time at which the face is processed. -/
structure Detection where
  label : Nat
  score : ℚ
  time : Nat

/-- The state the session loop reads and writes: the attendance table,
`self.marked_today`, and a ghost log of the labels passed to
`db.mark_attendance` (most recent first) used to count Ledger calls. -/
structure SessState where
  db : List AttRec
  marked_today : List Nat
  calls : List Nat
deriving DecidableEq

/-- The body of `for (x, y, w, h) in faces` (src/attendance.py:107-179) for
one face: decide; on acceptance, if the label is not in `marked_today` call
`mark_attendance`; add the label to `marked_today` only when that call
returned True (src/attendance.py:139-167). Drawing/printing is dropped. -/
def processFace (users : List UserRec) (thr : ℚ) (d : Nat)
    (s : SessState) (det : Detection) : SessState :=
  match decide_face users det.label det.score thr with
  | .Rejected => s
  | .Accepted label =>
    if label ∈ s.marked_today then s
    else
      let r := mark_attendance s.db label d det.time
      if r.fst then
        { db := r.snd, marked_today := label :: s.marked_today,
          calls := label :: s.calls }
      else
        { s with calls := label :: s.calls }

/-- One iteration of the `while True` loop: every face detected in the frame
is processed in order. -/
def processFrame (users : List UserRec) (thr : ℚ) (d : Nat)
    (s : SessState) (frame : List Detection) : SessState :=
  frame.foldl (processFace users thr d) s

/-- The whole capture loop over the frames seen before `ret` goes false or
the quit key is pressed. -/
def runFrames (users : List UserRec) (thr : ℚ) (d : Nat)
    (s : SessState) (frames : List (List Detection)) : SessState :=
  frames.foldl (processFrame users thr d) s

/-- `self.marked_today = set()` at src/attendance.py:82: the dedup cache is
cleared at session start; the attendance table persists. -/
def resetSession (s : SessState) : SessState :=
  { s with marked_today := [], calls := [] }

/-- Embeds `AttendanceSystem.start_attendance` (src/attendance.py:56-204):
return immediately when `load_recognizer` fails (before `cv2.VideoCapture`
is reached, so `camOk` is never consulted); return after opening the camera
when it is not opened; otherwise clear `marked_today` and run the loop.
`none` means no session ran; `some` carries the state at session end. -/
def start_attendance (modelExists readOk camOk : Bool) (users : List UserRec)
    (thr : ℚ) (d : Nat) (s : SessState) (frames : List (List Detection)) :
    Option SessState :=
  if (load_recognizer modelExists readOk users).fst = false then none
  else if camOk = false then none
  else some (runFrames users thr d (resetSession s) frames)

/-! ### Invariant predicates -/

/-- Two attendance rows collide on the composite key `(user_id, date)` of the
`UNIQUE(user_id, date)` constraint (src/database.py:52). -/
def SameKey (r s : AttRec) : Prop := r.user_id = s.user_id ∧ r.date = s.date

/-- The attendance table satisfies the composite unique constraint: no two
rows share a `(user_id, date)` key. -/
def UniqueKeys (db : List AttRec) : Prop :=
  List.Pairwise (fun r s => ¬ SameKey r s) db

/-- Number of rows of the attendance table with key `(uid, d)`. -/
def countKey (db : List AttRec) (uid d : Nat) : Nat :=
  (db.filter (fun r => r.user_id == uid && r.date == d)).length

/-- An arbitrary sequence of `mark_attendance` calls, each op giving
`(user_id, date, time)`, applied to the table in order. -/
def applyMarks (ops : List (Nat × Nat × Nat)) (db : List AttRec) : List AttRec :=
  ops.foldl (fun db op => (mark_attendance db op.1 op.2.1 op.2.2).snd) db

/-- Call-count invariant of the session loop for one identity `i` on the
session date `d`: either `i` was never passed to `mark_attendance` this
session, is not cached, and still has no record for `d`; or `i` is cached
and was passed to `mark_attendance` exactly once. -/
def CallInv (i d : Nat) (s : SessState) : Prop :=
  (i ∉ s.marked_today ∧ List.count i s.calls = 0 ∧ hasRecord s.db i d = false)
  ∨ (i ∈ s.marked_today ∧ List.count i s.calls = 1)

/-- Every label in the dedup cache has a persisted attendance record for the
session date `d`. -/
def CacheSubset (d : Nat) (s : SessState) : Prop :=
  ∀ l ∈ s.marked_today, hasRecord s.db l d = true

/-! ### Helper lemmas about the store -/

theorem hasRecord_append (db db2 : List AttRec) (u d : Nat) :
    hasRecord (db ++ db2) u d = (hasRecord db u d || hasRecord db2 u d) := by
  simp [hasRecord, List.any_append]

theorem mark_attendance_dup (db : List AttRec) (u d t : Nat)
    (h : hasRecord db u d = true) : mark_attendance db u d t = (false, db) := by
  simp [mark_attendance, markAttendanceEx, h]

theorem mark_attendance_new (db : List AttRec) (u d t : Nat)
    (h : hasRecord db u d = false) :
    mark_attendance db u d t = (true, db ++ [⟨u, d, t, "Present"⟩]) := by
  simp [mark_attendance, markAttendanceEx, h]

theorem hasRecord_eq_false_iff (db : List AttRec) (u d : Nat) :
    hasRecord db u d = false ↔ ∀ r ∈ db, ¬(r.user_id = u ∧ r.date = d) := by
  simp [hasRecord, List.any_eq_false, -not_and, not_and_or]

theorem markAttendanceEx_preserves_unique (fault : Bool) (db : List AttRec)
    (u d t : Nat) (h : UniqueKeys db) :
    UniqueKeys (markAttendanceEx fault db u d t).snd := by
  rcases fault with _ | _
  · by_cases hr : hasRecord db u d = true
    · simp [markAttendanceEx, hr]
      exact h
    · rw [Bool.not_eq_true] at hr
      simp [markAttendanceEx, hr]
      rw [UniqueKeys, List.pairwise_append]
      refine ⟨h, List.pairwise_singleton _ _, ?_⟩
      intro r hr2 s hs
      rw [List.mem_singleton] at hs
      subst hs
      rw [hasRecord_eq_false_iff] at hr
      exact fun hk => hr r hr2 ⟨hk.1, hk.2⟩
  · simpa [markAttendanceEx] using h

theorem countKey_le_one_of_unique (db : List AttRec) (h : UniqueKeys db)
    (u d : Nat) : countKey db u d ≤ 1 := by
  induction db with
  | nil => simp [countKey]
  | cons r db ih =>
    rw [UniqueKeys, List.pairwise_cons] at h
    by_cases hm : (r.user_id == u && r.date == d) = true
    · have hnone : ∀ s ∈ db, ¬(s.user_id == u && s.date == d) = true := by
        intro s hs hks
        simp only [Bool.and_eq_true, beq_iff_eq] at hm hks
        exact h.1 s hs ⟨hm.1.trans hks.1.symm, hm.2.trans hks.2.symm⟩
      have : db.filter (fun s => s.user_id == u && s.date == d) = [] :=
        List.filter_eq_nil_iff.mpr hnone
      simp [countKey, List.filter_cons, hm, this]
    · rw [Bool.not_eq_true] at hm
      simpa [countKey, List.filter_cons, hm] using ih h.2

theorem foldl_preserves {α β : Type} (P : β → Prop) (f : β → α → β)
    (hf : ∀ s a, P s → P (f s a)) :
    ∀ (l : List α) (s : β), P s → P (List.foldl f s l) := by
  intro l
  induction l with
  | nil => exact fun s h => h
  | cons a l ih => exact fun s h => ih (f s a) (hf s a h)

theorem applyMarks_preserves_unique (ops : List (Nat × Nat × Nat))
    (db : List AttRec) (h : UniqueKeys db) : UniqueKeys (applyMarks ops db) :=
  foldl_preserves UniqueKeys _
    (fun db2 op h2 => markAttendanceEx_preserves_unique false db2 op.1 op.2.1 op.2.2 h2)
    ops db h

/-! ### Helper lemmas about the session loop -/

theorem decide_face_accepted_label (users : List UserRec) (l l2 : Nat)
    (score thr : ℚ) (h : decide_face users l score thr = .Accepted l2) :
    l2 = l := by
  unfold decide_face at h
  by_cases hs : score < thr
  · simp only [hs, if_true] at h
    cases hl : lookup_user users l with
    | some u => rw [hl] at h; exact (Decision.Accepted.injEq _ _).mp h.symm
    | none => rw [hl] at h; exact absurd h (by simp)
  · simp only [hs, if_false] at h
    exact absurd h (by simp)

theorem processFace_rejected (users : List UserRec) (thr : ℚ) (d : Nat)
    (s : SessState) (det : Detection)
    (h : decide_face users det.label det.score thr = .Rejected) :
    processFace users thr d s det = s := by
  simp [processFace, h]

theorem processFace_cached (users : List UserRec) (thr : ℚ) (d : Nat)
    (s : SessState) (det : Detection)
    (h : decide_face users det.label det.score thr = .Accepted det.label)
    (hm : det.label ∈ s.marked_today) :
    processFace users thr d s det = s := by
  simp [processFace, h, hm]

theorem processFace_new (users : List UserRec) (thr : ℚ) (d : Nat)
    (s : SessState) (det : Detection)
    (h : decide_face users det.label det.score thr = .Accepted det.label)
    (hm : det.label ∉ s.marked_today)
    (hr : hasRecord s.db det.label d = false) :
    processFace users thr d s det =
      ⟨s.db ++ [⟨det.label, d, det.time, "Present"⟩],
       det.label :: s.marked_today, det.label :: s.calls⟩ := by
  simp [processFace, h, hm, mark_attendance_new s.db det.label d det.time hr]

theorem processFace_already_recorded (users : List UserRec) (thr : ℚ) (d : Nat)
    (s : SessState) (det : Detection)
    (h : decide_face users det.label det.score thr = .Accepted det.label)
    (hm : det.label ∉ s.marked_today)
    (hr : hasRecord s.db det.label d = true) :
    processFace users thr d s det = { s with calls := det.label :: s.calls } := by
  simp [processFace, h, hm, mark_attendance_dup s.db det.label d det.time hr]

theorem processFace_cases (users : List UserRec) (thr : ℚ) (d : Nat)
    (s : SessState) (det : Detection) :
    processFace users thr d s det = s ∨
    (det.label ∉ s.marked_today ∧ hasRecord s.db det.label d = false ∧
      processFace users thr d s det =
        ⟨s.db ++ [⟨det.label, d, det.time, "Present"⟩],
         det.label :: s.marked_today, det.label :: s.calls⟩) ∨
    (det.label ∉ s.marked_today ∧ hasRecord s.db det.label d = true ∧
      processFace users thr d s det = { s with calls := det.label :: s.calls }) := by
  cases hdec : decide_face users det.label det.score thr with
  | Rejected => exact Or.inl (processFace_rejected users thr d s det hdec)
  | Accepted l2 =>
    have hl : l2 = det.label := decide_face_accepted_label _ _ _ _ _ hdec
    subst hl
    by_cases hm : det.label ∈ s.marked_today
    · exact Or.inl (processFace_cached users thr d s det hdec hm)
    · by_cases hr : hasRecord s.db det.label d = true
      · exact Or.inr (Or.inr ⟨hm, hr,
          processFace_already_recorded users thr d s det hdec hm hr⟩)
      · rw [Bool.not_eq_true] at hr
        exact Or.inr (Or.inl ⟨hm, hr, processFace_new users thr d s det hdec hm hr⟩)

theorem processFace_preserves_callInv (i : Nat) (users : List UserRec)
    (thr : ℚ) (d : Nat) (s : SessState) (det : Detection) (h : CallInv i d s) :
    CallInv i d (processFace users thr d s det) := by
  rcases processFace_cases users thr d s det with heq | ⟨hm, hr, heq⟩ | ⟨hm, hr, heq⟩
  · rwa [heq]
  · rw [heq]
    by_cases hli : det.label = i
    · subst hli
      rcases h with ⟨_, hc, _⟩ | ⟨hmem, _⟩
      · refine Or.inr ⟨List.mem_cons_self _ _, ?_⟩
        simp [List.count_cons, hc]
      · exact absurd hmem hm
    · rcases h with ⟨hmem, hc, hrec⟩ | ⟨hmem, hc⟩
      · refine Or.inl ⟨?_, ?_, ?_⟩
        · simp only [List.mem_cons, not_or]
          exact ⟨Ne.symm hli, hmem⟩
        · simp [List.count_cons, hc, hli]
        · rw [hasRecord_append, hrec]
          simp [hasRecord, hli]
      · refine Or.inr ⟨List.mem_cons_of_mem _ hmem, ?_⟩
        simp [List.count_cons, hc, hli]
  · rw [heq]
    by_cases hli : det.label = i
    · subst hli
      rcases h with ⟨_, _, hrec⟩ | ⟨hmem, _⟩
      · rw [hr] at hrec
        exact absurd hrec (by simp)
      · exact absurd hmem hm
    · rcases h with ⟨hmem, hc, hrec⟩ | ⟨hmem, hc⟩
      · exact Or.inl ⟨hmem, by simp [List.count_cons, hc, hli], hrec⟩
      · exact Or.inr ⟨hmem, by simp [List.count_cons, hc, hli]⟩

theorem runFrames_preserves_callInv (i : Nat) (users : List UserRec)
    (thr : ℚ) (d : Nat) (s : SessState) (frames : List (List Detection))
    (h : CallInv i d s) : CallInv i d (runFrames users thr d s frames) :=
  foldl_preserves (CallInv i d) _
    (fun s2 frame h2 =>
      foldl_preserves (CallInv i d) _
        (fun s3 det h3 => processFace_preserves_callInv i users thr d s3 det h3)
        frame s2 h2)
    frames s h

theorem processFace_preserves_cacheSubset (users : List UserRec) (thr : ℚ)
    (d : Nat) (s : SessState) (det : Detection) (h : CacheSubset d s) :
    CacheSubset d (processFace users thr d s det) := by
  rcases processFace_cases users thr d s det with heq | ⟨hm, hr, heq⟩ | ⟨hm, hr, heq⟩
  · rwa [heq]
  · rw [heq]
    intro l hl
    rcases List.mem_cons.mp hl with hl | hl
    · subst hl
      simp [hasRecord_append, hasRecord]
    · simp [hasRecord_append, h l hl]
  · rw [heq]
    exact h

theorem runFrames_preserves_cacheSubset (users : List UserRec) (thr : ℚ)
    (d : Nat) (s : SessState) (frames : List (List Detection))
    (h : CacheSubset d s) : CacheSubset d (runFrames users thr d s frames) :=
  foldl_preserves (CacheSubset d) _
    (fun s2 frame h2 =>
      foldl_preserves (CacheSubset d) _
        (fun s3 det h3 => processFace_preserves_cacheSubset users thr d s3 det h3)
        frame s2 h2)
    frames s h

/-! ### Claim theorems -/

/-- C1: for every identity `i` and date `d`, at most one attendance row with
key `(i, d)` exists, no matter how many `mark_attendance` calls are made with
whatever times; the composite unique constraint (the IntegrityError branch)
preserves this invariant across every sequence of operations. -/
theorem attendance_unique_per_identity_date (ops : List (Nat × Nat × Nat))
    (db : List AttRec) (h : UniqueKeys db) :
    UniqueKeys (applyMarks ops db) ∧
    ∀ i d, countKey (applyMarks ops db) i d ≤ 1 :=
  ⟨applyMarks_preserves_unique ops db h,
   fun i d => countKey_le_one_of_unique _ (applyMarks_preserves_unique ops db h) i d⟩

theorem attendance_unique_per_identity_date_witness :
    countKey (applyMarks [(1, 5, 9), (1, 5, 10), (1, 5, 11)] []) 1 5 ≤ 1 :=
  (attendance_unique_per_identity_date [(1, 5, 9), (1, 5, 10), (1, 5, 11)] []
    List.Pairwise.nil).2 1 5

/-- C2: `mark_attendance` is idempotent in effect — on a table with no row
for `(i, d)`, the first call returns True and appends the row with the given
time; a subsequent call for the same pair (any time `t2`) returns False and
leaves the table, hence the stored time, unchanged. -/
theorem mark_attendance_idempotent_effect (db : List AttRec) (i d t t2 : Nat)
    (h : hasRecord db i d = false) :
    (mark_attendance db i d t).fst = true ∧
    (mark_attendance db i d t).snd = db ++ [⟨i, d, t, "Present"⟩] ∧
    mark_attendance (mark_attendance db i d t).snd i d t2 =
      (false, (mark_attendance db i d t).snd) := by
  have h1 := mark_attendance_new db i d t h
  refine ⟨by rw [h1], by rw [h1], ?_⟩
  apply mark_attendance_dup
  rw [h1]
  rw [hasRecord_append]
  simp [hasRecord]

theorem mark_attendance_idempotent_effect_witness :
    (mark_attendance [] 1 2 3).fst = true ∧
    (mark_attendance [] 1 2 3).snd = [] ++ [⟨1, 2, 3, "Present"⟩] ∧
    mark_attendance (mark_attendance [] 1 2 3).snd 1 2 4 =
      (false, (mark_attendance [] 1 2 3).snd) :=
  mark_attendance_idempotent_effect [] 1 2 3 4 (by decide)

/-- C3: the per-face decision is Accepted iff the predicted label resolves
to a known identity and the dissimilarity score is strictly below the
threshold; at `score = threshold` the face is Rejected.  Determinism/purity
is immediate: `decide_face` is a total function of `(label, score, threshold)`
and the directory snapshot. -/
theorem decide_face_accept_iff (users : List UserRec) (label : Nat)
    (score thr : ℚ) :
    (decide_face users label score thr = .Accepted label ↔
      (lookup_user users label).isSome = true ∧ score < thr) ∧
    decide_face users label thr thr = .Rejected := by
  constructor
  · constructor
    · intro h
      unfold decide_face at h
      by_cases hs : score < thr
      · simp only [hs, if_true] at h
        cases hl : lookup_user users label with
        | some u => exact ⟨by simp [hl], hs⟩
        | none => rw [hl] at h; exact absurd h (by simp)
      · simp only [hs, if_false] at h
        exact absurd h (by simp)
    · rintro ⟨h1, h2⟩
      unfold decide_face
      simp only [h2, if_true]
      cases hl : lookup_user users label with
      | some u => rfl
      | none => rw [hl] at h1; simp at h1
  · unfold decide_face
    simp [lt_irrefl]

/-- C4 counterexample: identity 1 already has a record for the session date
(from a prior session); in a fresh session the dedup cache never captures it,
so two accepted recognitions issue two `mark_attendance` calls — not at most
one as the claim states. -/
theorem prior_day_record_repeated_calls :
    Option.map (fun st => List.count 1 st.calls)
      (start_attendance true true true [⟨1, "R1", "Alice"⟩] 70 5
        ⟨[⟨1, 5, 9, "Present"⟩], [], []⟩ [[⟨1, 10, 11⟩], [⟨1, 10, 12⟩]]) =
      some 2 := by decide

/-- C4 amended: within one session started with a cleared cache, at most one
`mark_attendance` call is issued for an identity that had no attendance row
for the session date at session start (the first call succeeds and caches
the label; after that the cache suppresses further calls). -/
theorem session_one_call_per_unrecorded_identity (users : List UserRec)
    (thr : ℚ) (d : Nat) (s : SessState) (frames : List (List Detection))
    (i : Nat) (h : hasRecord s.db i d = false) :
    List.count i (runFrames users thr d (resetSession s) frames).calls ≤ 1 := by
  have h0 : CallInv i d (resetSession s) :=
    Or.inl ⟨by simp [resetSession], by simp [resetSession],
      by simpa [resetSession] using h⟩
  rcases runFrames_preserves_callInv i users thr d _ frames h0 with
    ⟨_, hc, _⟩ | ⟨_, hc⟩
  · rw [hc]
    exact Nat.zero_le 1
  · rw [hc]

theorem session_one_call_per_unrecorded_identity_witness :
    List.count 1 (runFrames [⟨1, "R1", "Alice"⟩] 70 5
      (resetSession ⟨[], [], []⟩) [[⟨1, 10, 11⟩], [⟨1, 10, 12⟩]]).calls ≤ 1 :=
  session_one_call_per_unrecorded_identity [⟨1, "R1", "Alice"⟩] 70 5
    ⟨[], [], []⟩ [[⟨1, 10, 11⟩], [⟨1, 10, 12⟩]] 1 (by decide)

/-- C5 counterexample: label 2 is recorded for the session date in a prior
session; a fresh session accepts it once, calls `mark_attendance` (logged
call, table unchanged so the call returned False) — yet `marked_today` stays
empty: the label is not added to the cache on the AlreadyRecorded path. -/
theorem already_recorded_label_not_cached_cex :
    start_attendance true true true [⟨2, "R2", "Bob"⟩] 70 6
      ⟨[⟨2, 6, 7, "Present"⟩], [], []⟩ [[⟨2, 20, 13⟩]] =
      some ⟨[⟨2, 6, 7, "Present"⟩], [], [2]⟩ := by decide

/-- C5 amended: when an accepted, uncached label already has a row for the
session date (so `mark_attendance` returns False), the loop body leaves both
`marked_today` and the table unchanged and only logs the Ledger call — the
identity therefore stays eligible for further Ledger calls this session. -/
theorem already_recorded_only_logs_call (users : List UserRec) (thr : ℚ)
    (d : Nat) (s : SessState) (det : Detection)
    (hdec : decide_face users det.label det.score thr = .Accepted det.label)
    (hm : det.label ∉ s.marked_today)
    (hr : hasRecord s.db det.label d = true) :
    (processFace users thr d s det).marked_today = s.marked_today ∧
    (processFace users thr d s det).db = s.db ∧
    (processFace users thr d s det).calls = det.label :: s.calls := by
  rw [processFace_already_recorded users thr d s det hdec hm hr]
  exact ⟨rfl, rfl, rfl⟩

theorem already_recorded_only_logs_call_witness :
    (processFace [⟨3, "R3", "Cleo"⟩] 70 8 ⟨[⟨3, 8, 1, "Present"⟩], [], []⟩
      ⟨3, 1, 2⟩).marked_today = [] ∧
    (processFace [⟨3, "R3", "Cleo"⟩] 70 8 ⟨[⟨3, 8, 1, "Present"⟩], [], []⟩
      ⟨3, 1, 2⟩).db = [⟨3, 8, 1, "Present"⟩] ∧
    (processFace [⟨3, "R3", "Cleo"⟩] 70 8 ⟨[⟨3, 8, 1, "Present"⟩], [], []⟩
      ⟨3, 1, 2⟩).calls = [3] :=
  already_recorded_only_logs_call [⟨3, "R3", "Cleo"⟩] 70 8
    ⟨[⟨3, 8, 1, "Present"⟩], [], []⟩ ⟨3, 1, 2⟩ (by decide) (by decide) (by decide)

/-- C6: `start_attendance` clears `marked_today` at session start — a session
that runs does so from `resetSession s`, whose cache contains no identity,
whatever records or cache contents `s` carried from prior days or sessions. -/
theorem session_cache_starts_empty (users : List UserRec) (thr : ℚ) (d : Nat)
    (s : SessState) (frames : List (List Detection)) (i : Nat) :
    i ∉ (resetSession s).marked_today ∧
    start_attendance true true true users thr d s frames =
      some (runFrames users thr d (resetSession s) frames) := by
  constructor
  · simp [resetSession]
  · simp [start_attendance, load_recognizer]

/-- C7: `get_attendance_by_date` returns exactly the join rows of the given
date sorted ascending by time, and `get_all_attendance_records` returns all
join rows sorted by date descending then time descending. -/
theorem query_orderings (users : List UserRec) (db : List AttRec) (d : Nat) :
    List.Sorted byDateLe (get_attendance_by_date users db d) ∧
    (get_attendance_by_date users db d).Perm (byDateRows users db d) ∧
    List.Sorted allRowLe (get_all_attendance_records users db) ∧
    (get_all_attendance_records users db).Perm (allRows users db) :=
  ⟨List.sorted_insertionSort _ _, List.perm_insertionSort _ _,
   List.sorted_insertionSort _ _, List.perm_insertionSort _ _⟩

/-- C8 counterexample: with the model file present but zero enrolled
identities, `load_recognizer` returns True (empty label map) and
`start_attendance` runs a session — the claim's "no identities enrolled"
failure mode does not exist in the code. -/
theorem load_succeeds_with_zero_identities :
    load_recognizer true true [] = (true, some []) ∧
    start_attendance true true true [] 70 5 ⟨[], [], []⟩ [] =
      some ⟨[], [], []⟩ := by decide

/-- C8 amended: `load_recognizer` fails exactly when the model file is
missing or reading it raises — never because the users table is empty — and
on failure `start_attendance` returns `none` whatever the camera state,
i.e. before the frame source is opened. -/
theorem load_gate_on_model_only (mE rOk cOk : Bool) (users : List UserRec)
    (thr : ℚ) (d : Nat) (s : SessState) (frames : List (List Detection)) :
    (load_recognizer mE rOk users).fst = (mE && rOk) ∧
    start_attendance false rOk cOk users thr d s frames = none ∧
    start_attendance mE false cOk users thr d s frames = none := by
  refine ⟨?_, ?_, ?_⟩
  · cases mE <;> cases rOk <;> simp [load_recognizer]
  · simp [start_attendance, load_recognizer]
  · cases mE <;> simp [start_attendance, load_recognizer]

/-- C9 counterexample: a generic storage fault on an empty table and a
duplicate insert both make `mark_attendance` return False — the returned
value does not tell the caller which of the two occurred. -/
theorem fault_and_duplicate_both_false :
    (markAttendanceEx true [] 4 5 9).fst = false ∧
    (markAttendanceEx false [⟨4, 5, 9, "Present"⟩] 4 5 10).fst = false := by
  decide

/-- C9 amended: the uniqueness violation is caught (False, state unchanged)
and never propagates, and a generic storage fault is likewise caught with
the very same result — there is no distinct StorageFault kind, so the Bool
return value conflates the two outcomes. -/
theorem mark_attendance_catches_but_conflates (db : List AttRec) (u d t : Nat)
    (h : hasRecord db u d = true) :
    markAttendanceEx false db u d t = (false, db) ∧
    markAttendanceEx true db u d t = (false, db) :=
  ⟨mark_attendance_dup db u d t h, by simp [markAttendanceEx]⟩

theorem mark_attendance_catches_but_conflates_witness :
    markAttendanceEx false [⟨7, 8, 9, "Present"⟩] 7 8 10 =
      (false, [⟨7, 8, 9, "Present"⟩]) ∧
    markAttendanceEx true [⟨7, 8, 9, "Present"⟩] 7 8 10 =
      (false, [⟨7, 8, 9, "Present"⟩]) :=
  mark_attendance_catches_but_conflates [⟨7, 8, 9, "Present"⟩] 7 8 10 (by decide)

/-- C10: every label in the dedup cache has a persisted record for the
session date: the property is preserved by each loop-body step and by whole
runs, and holds at session start where the cache is empty — so it holds
throughout any session. -/
theorem cache_subset_of_recorded (users : List UserRec) (thr : ℚ) (d : Nat)
    (s : SessState) (det : Detection) (frames : List (List Detection))
    (h : CacheSubset d s) :
    CacheSubset d (processFace users thr d s det) ∧
    CacheSubset d (runFrames users thr d s frames) ∧
    CacheSubset d (resetSession s) :=
  ⟨processFace_preserves_cacheSubset users thr d s det h,
   runFrames_preserves_cacheSubset users thr d s frames h,
   by simp [CacheSubset, resetSession]⟩

theorem cache_subset_of_recorded_witness :
    CacheSubset 5 (processFace [⟨1, "R1", "Alice"⟩] 70 5 ⟨[], [], []⟩
      ⟨1, 10, 11⟩) ∧
    CacheSubset 5 (runFrames [⟨1, "R1", "Alice"⟩] 70 5 ⟨[], [], []⟩
      [[⟨1, 10, 11⟩], [⟨1, 10, 12⟩]]) ∧
    CacheSubset 5 (resetSession ⟨[], [], []⟩) :=
  cache_subset_of_recorded [⟨1, "R1", "Alice"⟩] 70 5 ⟨[], [], []⟩
    ⟨1, 10, 11⟩ [[⟨1, 10, 11⟩], [⟨1, 10, 12⟩]] (by simp [CacheSubset])

end FaceKeeper
